import Mathlib

/-!
Verification of the git-status synchronization core of the `repo-manager`
application, shallowly embedded in Lean 4.

The embedding follows the Rust source:
* `src/git/pool.rs` — the bounded operation pool (`GIT_OPERATION_POOL`,
  `PoolGuard::acquire`, `PoolGuard::try_acquire_with_timeout`, `Drop for
  PoolGuard`);
* `src/git/operations.rs` — `switch_branch`, `git_fetch_fast_async_with_retry`;
* `src/git/logic.rs` — `get_git_info` (branch-listing parse, ahead/behind),
  `get_remotes`;
* `src/app/search.rs` — `RepositorySearcher::find_git_repositories`;
* `src/workspace/mod.rs` — `Workspace::add_repository`, `remove_repository`.

External effects (subprocess spawning, filesystem reads, channel sends) are
modelled by explicit environments and by returning the list of messages a
worker posts or the list of processes it spawns.
-/

namespace RepoManager

/-! ## Operation pool (`src/git/pool.rs`)

`GIT_OPERATION_POOL` is a mutex-protected `VecDeque<()>` initialised with 8
unit tokens.  Since the tokens are interchangeable, the pool state is fully
described by the number of free tokens together with the number of live
`PoolGuard` values (permits currently held).  `PoolGuard::acquire` pops a
token (returning `None` when the deque is empty) and `Drop for PoolGuard`
pushes one token back.  `try_acquire_with_timeout` is a poll loop that
repeatedly calls `acquire`, so in the trace model below each of its polls is
one `tryAcquire` event. -/

/-- Pool capacity: the initialisation loop `for _ in 0..8` pushes 8 tokens. -/
def poolCapacity : Nat := 8

/-- The pool state: free tokens in the deque, plus live `PoolGuard`s. -/
structure PoolState where
  free : Nat
  held : Nat
deriving DecidableEq, Repr

/-- The freshly initialised pool: 8 tokens, no guard outstanding. -/
def poolInit : PoolState := ⟨poolCapacity, 0⟩

/-- Model of `PoolGuard::acquire`: pop a token from the deque; `none` when empty. -/
def acquireGuard (s : PoolState) : Option PoolState :=
  if s.free = 0 then none else some ⟨s.free - 1, s.held + 1⟩

/-- Model of `Drop for PoolGuard`: push one token back (the dropped guard ceases to
exist).  The source pushes unconditionally whenever the mutex lock succeeds. -/
def releaseGuard (s : PoolState) : PoolState := ⟨s.free + 1, s.held - 1⟩

/-- Events observable at the pool: an acquisition attempt (one call to
`PoolGuard::acquire`, directly or from one poll iteration of
`try_acquire_with_timeout`), and the drop of a live guard. -/
inductive PoolEvent where
  | tryAcquire
  | release
deriving DecidableEq, Repr

/-- One step of the pool.  A failed acquisition attempt leaves the state
unchanged (the caller just gets `None`).  A `release` event is only
meaningful when some guard is live — a `PoolGuard` can only be dropped if it
was first created by a successful acquire — so a trace releasing with no
guard outstanding is rejected (`none`). -/
def poolStep (s : PoolState) : PoolEvent → Option PoolState
  | PoolEvent.tryAcquire =>
      match acquireGuard s with
      | some s' => some s'
      | none => some s
  | PoolEvent.release =>
      if s.held = 0 then none else some (releaseGuard s)

/-- Run a sequence of pool events from a state. -/
def poolRun (s : PoolState) : List PoolEvent → Option PoolState
  | [] => some s
  | e :: es =>
      match poolStep s e with
      | some s' => poolRun s' es
      | none => none

theorem poolStep_tryAcquire_empty (s : PoolState) (h : s.free = 0) :
    poolStep s PoolEvent.tryAcquire = some s := by
  simp [poolStep, acquireGuard, h]

theorem poolStep_tryAcquire_free (s : PoolState) (h : ¬ s.free = 0) :
    poolStep s PoolEvent.tryAcquire = some ⟨s.free - 1, s.held + 1⟩ := by
  simp [poolStep, acquireGuard, h]

theorem poolStep_release_none (s : PoolState) (h : s.held = 0) :
    poolStep s PoolEvent.release = none := by
  simp [poolStep, h]

theorem poolStep_release_held (s : PoolState) (h : ¬ s.held = 0) :
    poolStep s PoolEvent.release = some ⟨s.free + 1, s.held - 1⟩ := by
  simp [poolStep, releaseGuard, h]

/-- The conserved quantity: free tokens plus held permits equals capacity. -/
theorem poolStep_conserves (s s' : PoolState) (e : PoolEvent)
    (hs : s.free + s.held = poolCapacity) (h : poolStep s e = some s') :
    s'.free + s'.held = poolCapacity := by
  cases e with
  | tryAcquire =>
      by_cases hz : s.free = 0
      · rw [poolStep_tryAcquire_empty s hz] at h
        cases h
        exact hs
      · rw [poolStep_tryAcquire_free s hz] at h
        cases h
        simp only []
        omega
  | release =>
      by_cases hz : s.held = 0
      · rw [poolStep_release_none s hz] at h
        cases h
      · rw [poolStep_release_held s hz] at h
        cases h
        simp only []
        omega

theorem poolRun_conserves (tr : List PoolEvent) (s s' : PoolState)
    (hs : s.free + s.held = poolCapacity) (h : poolRun s tr = some s') :
    s'.free + s'.held = poolCapacity := by
  induction tr generalizing s with
  | nil =>
      unfold poolRun at h
      cases h
      exact hs
  | cons e es ih =>
      unfold poolRun at h
      cases he : poolStep s e with
      | none => rw [he] at h; cases h
      | some s₁ =>
          rw [he] at h
          exact ih s₁ (poolStep_conserves s s₁ e hs he) h

/-- C1: For every sequence of interleaved acquisitions (`acquire` or the
polling `try_acquire_with_timeout`) and releases (`PoolGuard` drops), the
number of simultaneously held permits never exceeds the fixed capacity 8:
every state reachable from the initial pool by a valid event trace has at
most 8 live guards. -/
theorem pool_capacity_invariant (tr : List PoolEvent) (s : PoolState)
    (h : poolRun poolInit tr = some s) : s.held ≤ 8 := by
  have hc : s.free + s.held = poolCapacity :=
    poolRun_conserves tr poolInit s (by simp [poolInit, poolCapacity]) h
  have : poolCapacity = 8 := rfl
  omega

/-- Witness for C1 at a concrete trace: two acquisitions, one release. -/
theorem pool_capacity_invariant_witness :
    poolRun poolInit [PoolEvent.tryAcquire, PoolEvent.tryAcquire,
      PoolEvent.release] = some ⟨7, 1⟩ ∧ (7 : Nat) ≥ 0 ∧ (1 : Nat) ≤ 8 := by
  refine ⟨by decide, by decide, ?_⟩
  exact pool_capacity_invariant
    [PoolEvent.tryAcquire, PoolEvent.tryAcquire, PoolEvent.release]
    ⟨7, 1⟩ (by decide)

/-- A worker that acquires a permit, runs (possibly failing), and whose
scope then ends.  Rust runs `Drop for PoolGuard` on every exit path of the
holding scope — normal return, early return via `?`, or unwinding — so the
release happens here regardless of whether the body failed.  Returns whether
the acquisition succeeded, paired with the pool state after the scope ends. -/
def runScopedHolder (s : PoolState) : Bool × PoolState :=
  match acquireGuard s with
  | some s' => (true, releaseGuard s')
  | none => (false, s)

/-- Issue `n` sequential scoped acquisitions (each acquires and, its scope ending,
releases); `true` iff every one of them succeeded in acquiring. -/
def seqScopedAcquisitions : Nat → PoolState → Bool × PoolState
  | 0, s => (true, s)
  | n + 1, s =>
      let r := runScopedHolder s
      let rest := seqScopedAcquisitions n r.2
      (r.1 && rest.1, rest.2)

/-- C6: a holder that terminates via an error path still returns its permit
when its scope ends: the failing holder leaves the pool exactly as it found
it (all 8 tokens free), and capacity+1 = 9 sequential acquisitions issued
afterwards all succeed — in particular the 9th does. -/
theorem pool_release_on_failure :
    (runScopedHolder poolInit).1 = true ∧
    (runScopedHolder poolInit).2 = poolInit ∧
    (seqScopedAcquisitions 9 (runScopedHolder poolInit).2).1 = true := by
  refine ⟨by decide, by decide, by decide⟩

/-! ## String helpers shared by the embeddings

Rust's `str::contains(pat)` (substring search), modelled on character
lists. -/

/-- Here `charsLeading pat s` holds when `pat` occurs at the very start of `s`. -/
def charsLeading : List Char → List Char → Bool
  | [], _ => true
  | _ :: _, [] => false
  | a :: as, b :: bs => a == b && charsLeading as bs

/-- Whether `pat` occurs somewhere inside the character list. -/
def charsHaveSub (pat : List Char) : List Char → Bool
  | [] => charsLeading pat []
  | c :: rest => charsLeading pat (c :: rest) || charsHaveSub pat rest

/-- Rust `haystack.contains(needle)` on strings. -/
def strContains (s pat : String) : Bool := charsHaveSub pat.data s.data

/-- Rust `s.starts_with(pat)`. -/
def strStartsWith (s pat : String) : Bool := charsLeading pat.data s.data

/-- ASCII whitespace; the inputs these embeddings trim (git plumbing
output) only ever carry spaces, tabs and line endings. -/
def isTrimmedSpace (c : Char) : Bool :=
  c == ' ' || c == '\t' || c == '\n' || c == '\r'

/-- Rust `str::trim`: strip leading and trailing whitespace. -/
def strTrim (s : String) : String :=
  ⟨((s.data.dropWhile isTrimmedSpace).reverse.dropWhile isTrimmedSpace).reverse⟩

/-- Rust `str::split(c)`: split at every occurrence of the character,
keeping empty fields. -/
def charsSplitAt (c : Char) : List Char → List Char → List (List Char)
  | [], acc => [acc.reverse]
  | x :: xs, acc =>
      if x == c then acc.reverse :: charsSplitAt c xs []
      else charsSplitAt c xs (x :: acc)

/-- Rust `s.split(c).collect::<Vec<_>>()`. -/
def strSplitChar (s : String) (c : Char) : List String :=
  (charsSplitAt c s.data []).map (fun l => ⟨l⟩)

/-- Rust `s.is_empty()`. -/
def strIsEmpty (s : String) : Bool := s.data.isEmpty

/-- Lower-case an ASCII letter, leave everything else alone. -/
def asciiLower (c : Char) : Char :=
  if c.toNat ≥ 65 ∧ c.toNat ≤ 90 then Char.ofNat (c.toNat + 32) else c

/-- Rust `str::eq_ignore_ascii_case`. -/
def eqIgnoreAsciiCase (a b : String) : Bool :=
  a.data.map asciiLower == b.data.map asciiLower

/-! ## Fetch with retry (`git_fetch_fast_async_with_retry`, `src/git/operations.rs`)

The worker first waits up to 5000 ms for a pool permit; on timeout it posts
one error message and terminates.  Otherwise it runs a `while attempt <
max_attempts` loop with `max_attempts = 3` and `delay_ms` starting at 1000
and doubling after each retry notice.  The loop body runs `git_fetch`; on
success it posts the `get_git_info` outcome and returns; on failure it
classifies the error text by substring search.

The embedding abstracts the channel: the worker's behaviour is the list of
messages it sends, in order.  The outcome of the `n`-th fetch attempt is
supplied by an oracle `fetch : Nat → FetchOutcome`; the outcome of the
single `get_git_info` call after a successful fetch is the `infoResult`
argument.  Sleeping is not modelled; the backoff delay a retry notice
announces is the `delay_ms` value the message interpolates. -/

/-- Result of one `git_fetch` invocation. -/
inductive FetchOutcome where
  | ok
  | err (e : String)
deriving DecidableEq, Repr

/-- The messages `git_fetch_fast_async_with_retry` can send, identified by
which `format!` produced them together with the interpolated data. -/
inductive RetryMsg where
  /-- Message `RepoStatusUpdated` after a successful fetch and `get_git_info`. -/
  | statusUpdated
  /-- failed to get git info after a successful fetch. -/
  | infoError (e : String)
  /-- retry notice: attempt `attempt` of `maxA` failed, retrying in `delayMs`. -/
  | retryNotice (attempt maxA delayMs : Nat) (err : String)
  /-- final failure after all `maxA` attempts. -/
  | finalFailure (maxA : Nat) (err : String)
  /-- immediate failure on a non-transient error. -/
  | fetchFailed (err : String)
  /-- timeout waiting for a pool slot. -/
  | acquireTimeout
deriving DecidableEq, Repr

/-- The transient-network classification: the error string contains one of
the three connection-related substrings. -/
def isTransientError (e : String) : Bool :=
  strContains e "Connection closed" || strContains e "Connection refused" ||
    strContains e "Could not read from remote repository"

/-- From `let max_attempts = 3` in the source. -/
def maxFetchAttempts : Nat := 3

/-- The retry loop.  `attempt` and `delayMs` are the source's mutable
locals; `fuel` only bounds the recursion and is set to `maxFetchAttempts`
at the top level, which suffices because each iteration increments
`attempt` and the loop guard is `attempt < maxFetchAttempts`. -/
def retryLoopAux (fetch : Nat → FetchOutcome) (infoResult : Except String Unit) :
    Nat → Nat → Nat → List RetryMsg
  | 0, _, _ => []
  | fuel + 1, attempt, delayMs =>
    if attempt < maxFetchAttempts then
      let a := attempt + 1
      match fetch a with
      | FetchOutcome.ok =>
          match infoResult with
          | Except.ok _ => [RetryMsg.statusUpdated]
          | Except.error e => [RetryMsg.infoError e]
      | FetchOutcome.err e =>
          if isTransientError e then
            if a < maxFetchAttempts then
              RetryMsg.retryNotice a maxFetchAttempts delayMs e
                :: retryLoopAux fetch infoResult fuel a (delayMs * 2)
            else [RetryMsg.finalFailure maxFetchAttempts e]
          else [RetryMsg.fetchFailed e]
    else []

/-- Model of `git_fetch_fast_async_with_retry`: message trace of the spawned worker.
`poolAcquired` tells whether `try_acquire_with_timeout(5000)` returned a
guard. -/
def gitFetchFastAsyncWithRetry (poolAcquired : Bool)
    (fetch : Nat → FetchOutcome) (infoResult : Except String Unit) :
    List RetryMsg :=
  if poolAcquired then retryLoopAux fetch infoResult maxFetchAttempts 0 1000
  else [RetryMsg.acquireTimeout]

/-- C2: if three consecutive fetch attempts all fail with transient-network
error text, the worker posts exactly two retry notices — after attempts 1
and 2, announcing backoff delays 1000 ms then 2000 ms — followed by exactly
one final failure message after attempt 3, and nothing else (no fourth
attempt: the trace is independent of `fetch n` for `n > 3`). -/
theorem retry_backoff_schedule (fetch : Nat → FetchOutcome)
    (infoResult : Except String Unit) (e1 e2 e3 : String)
    (h1 : fetch 1 = FetchOutcome.err e1) (h2 : fetch 2 = FetchOutcome.err e2)
    (h3 : fetch 3 = FetchOutcome.err e3)
    (t1 : isTransientError e1 = true) (t2 : isTransientError e2 = true)
    (t3 : isTransientError e3 = true) :
    gitFetchFastAsyncWithRetry true fetch infoResult =
      [RetryMsg.retryNotice 1 3 1000 e1, RetryMsg.retryNotice 2 3 2000 e2,
        RetryMsg.finalFailure 3 e3] := by
  simp [gitFetchFastAsyncWithRetry, retryLoopAux, maxFetchAttempts,
    h1, h2, h3, t1, t2, t3]

/-- Witness for C2: three failures with the literal "Connection refused"
text produce exactly the two notices and the final failure. -/
theorem retry_backoff_schedule_witness :
    gitFetchFastAsyncWithRetry true (fun _ => FetchOutcome.err "Connection refused")
      (Except.ok ()) =
      [RetryMsg.retryNotice 1 3 1000 "Connection refused",
        RetryMsg.retryNotice 2 3 2000 "Connection refused",
        RetryMsg.finalFailure 3 "Connection refused"] :=
  retry_backoff_schedule (fun _ => FetchOutcome.err "Connection refused")
    (Except.ok ()) "Connection refused" "Connection refused" "Connection refused"
    rfl rfl rfl (by decide) (by decide) (by decide)

/-- C5: a fetch failure whose error text is not transient causes exactly one
failure message and immediate termination of the loop, no matter how many
attempts remain (any loop position `attempt < 3`, any remaining fuel, any
delay). -/
theorem nontransient_no_retry (fetch : Nat → FetchOutcome)
    (infoResult : Except String Unit) (e : String) (fuel attempt delayMs : Nat)
    (hlt : attempt < maxFetchAttempts)
    (hf : fetch (attempt + 1) = FetchOutcome.err e)
    (ht : isTransientError e = false) :
    retryLoopAux fetch infoResult (fuel + 1) attempt delayMs =
      [RetryMsg.fetchFailed e] := by
  simp [retryLoopAux, hlt, hf, ht]

/-- Witness for C5: an authentication failure on the very first attempt is
reported once and the loop stops. -/
theorem nontransient_no_retry_witness :
    retryLoopAux (fun _ => FetchOutcome.err "Authentication failed")
      (Except.ok ()) 3 0 1000 =
      [RetryMsg.fetchFailed "Authentication failed"] :=
  nontransient_no_retry (fun _ => FetchOutcome.err "Authentication failed")
    (Except.ok ()) "Authentication failed" 2 0 1000 (by decide) rfl (by decide)

/-! ## Remote enumeration (`get_remotes`, `src/git/logic.rs`)

`get_remotes` runs `git remote`; when the invocation yields `Ok(output)`
with a successful exit status it returns the trimmed non-empty stdout
lines — even when there are none — and only otherwise falls back to
`["origin"]`.  The subprocess result is modelled as `Option CmdOut`
(`none` = the invocation could not run). -/

/-- Captured output of one subprocess invocation. -/
structure CmdOut where
  success : Bool
  stdout : String
  stderr : String := ""
deriving DecidableEq, Repr

/-- Model of `get_remotes` from `src/git/logic.rs`, the subprocess result supplied
as an argument. -/
def get_remotes (cmd : Option CmdOut) : List String :=
  match cmd with
  | some out =>
      if out.success then
        ((strSplitChar out.stdout '\n').map strTrim).filter
          (fun l => ¬ strIsEmpty l)
      else ["origin"]
  | none => ["origin"]

/-- C4 counterexample: a `git remote` invocation that succeeds but lists no
remotes yields the empty list, not the claimed fallback `["origin"]`. -/
theorem get_remotes_empty_counterexample :
    get_remotes (some ⟨true, "", ""⟩) = [] ∧
      get_remotes (some ⟨true, "", ""⟩) ≠ ["origin"] := by
  refine ⟨by decide, by decide⟩

/-- C4 amended: the fallback `["origin"]` applies exactly when the `git
remote` invocation fails to run or exits unsuccessfully; a successful
invocation returns its trimmed non-empty stdout lines, even when that list
is empty. -/
theorem get_remotes_fallback (out : CmdOut) :
    get_remotes none = ["origin"] ∧
    (out.success = false → get_remotes (some out) = ["origin"]) ∧
    (out.success = true →
      get_remotes (some out) =
        ((strSplitChar out.stdout '\n').map strTrim).filter
          (fun l => ¬ strIsEmpty l)) := by
  refine ⟨rfl, fun h => ?_, fun h => ?_⟩
  · simp [get_remotes, h]
  · simp [get_remotes, h]

/-- Witness for C4's amended claim: a failed listing falls back to
`["origin"]`; a successful two-line listing is returned as is. -/
theorem get_remotes_fallback_witness :
    get_remotes (some ⟨false, "", ""⟩) = ["origin"] ∧
      get_remotes (some ⟨true, "origin\nupstream\n", ""⟩) = ["origin", "upstream"] := by
  constructor
  · exact (get_remotes_fallback ⟨false, "", ""⟩).2.1 rfl
  · have h := (get_remotes_fallback ⟨true, "origin\nupstream\n", ""⟩).2.2 rfl
    rw [h]
    decide

/-! ## Ahead/behind computation (`get_ahead_behind`, `src/git/logic.rs`)

With a current branch, the code iterates over the remote names (obtained
from `get_remotes`); for each it builds `<remote>/<branch>`, probes it with
`git show-branch`, and on the first probe that runs successfully also runs
`git rev-list --count --left-right <branch>...<remote>/<branch>`; if that
runs, exits successfully, and its trimmed stdout splits at a tab, the two
fields are parsed (`parse::<usize>().unwrap_or(0)`) and returned.  Any
failing step just moves on to the next remote.  With no current branch, or
when no remote gets that far, the result is `(0, 0)`.  (The Rust function
returns `Result` but every path is `Ok`; the caller's `unwrap_or((0,0))`
can never see an `Err`, so the embedding returns the pair directly.) -/

/-- Subprocess environment for `get_ahead_behind`: outcome of the
`show-branch` probe keyed by the `<remote>/<branch>` ref (combining spawn
failure and unsuccessful exit, which the source treats alike), and the
`rev-list` result keyed by its `<branch>...<ref>` range argument (`none` =
spawn failure). -/
structure AheadBehindEnv where
  showBranchOk : String → Bool
  revList : String → Option CmdOut

/-- Rust `str::split_once(c)` on character lists. -/
def splitOnceChars (c : Char) : List Char → Option (List Char × List Char)
  | [] => none
  | x :: xs =>
      if x == c then some ([], xs)
      else
        match splitOnceChars c xs with
        | some (a, b) => some (x :: a, b)
        | none => none

/-- Rust `str::split_once(c)`. -/
def splitOnce (s : String) (c : Char) : Option (String × String) :=
  match splitOnceChars c s.data with
  | some (a, b) => some (⟨a⟩, ⟨b⟩)
  | none => none

/-- Digit-string parse; `none` on any non-digit or on the empty string. -/
def parseDigits (acc : Nat) : List Char → Option Nat
  | [] => some acc
  | c :: cs =>
      if c.isDigit then parseDigits (acc * 10 + (c.toNat - 48)) cs else none

/-- Rust `s.parse::<usize>().unwrap_or(0)`, for the digit strings
`rev-list --count` produces. -/
def parseUsizeOr0 (s : String) : Nat :=
  match s.data with
  | [] => 0
  | l => (parseDigits 0 l).getD 0

/-- The `for remote_name in &remotes` loop of `get_ahead_behind`. -/
def aheadBehindLoop (env : AheadBehindEnv) (branchName : String) :
    List String → Nat × Nat
  | [] => (0, 0)
  | remoteName :: rest =>
      let remoteBranch := remoteName ++ "/" ++ branchName
      if env.showBranchOk remoteBranch then
        match env.revList (branchName ++ "..." ++ remoteBranch) with
        | some out =>
            if out.success then
              match splitOnce (strTrim out.stdout) '\t' with
              | some (aheadStr, behindStr) =>
                  (parseUsizeOr0 aheadStr, parseUsizeOr0 behindStr)
              | none => aheadBehindLoop env branchName rest
            else aheadBehindLoop env branchName rest
        | none => aheadBehindLoop env branchName rest
      else aheadBehindLoop env branchName rest

/-- Model of `get_ahead_behind` from `src/git/logic.rs`; `remotes` is the list the
source obtains from `get_remotes`. -/
def get_ahead_behind (env : AheadBehindEnv) (currentBranch : Option String)
    (remotes : List String) : Nat × Nat :=
  match currentBranch with
  | some branchName => aheadBehindLoop env branchName remotes
  | none => (0, 0)

/-- C7: with no current branch the report is `(0,0)`; when no remote's
tracking ref `<remote>/<branch>` passes the `show-branch` probe the report
is `(0,0)`; and for the first remote whose probe succeeds and whose
`rev-list` output parses as two tab-separated counts, exactly those parsed
counts are reported. -/
theorem ahead_behind_reporting (env : AheadBehindEnv) (remotes : List String)
    (b : String) (pre post : List String) (r : String) (out : CmdOut)
    (sa sb : String) :
    (get_ahead_behind env none remotes = (0, 0)) ∧
    ((∀ rn ∈ remotes, env.showBranchOk (rn ++ "/" ++ b) = false) →
      get_ahead_behind env (some b) remotes = (0, 0)) ∧
    ((∀ rn ∈ pre, env.showBranchOk (rn ++ "/" ++ b) = false) →
      env.showBranchOk (r ++ "/" ++ b) = true →
      env.revList (b ++ "..." ++ (r ++ "/" ++ b)) = some out →
      out.success = true →
      splitOnce (strTrim out.stdout) '\t' = some (sa, sb) →
      get_ahead_behind env (some b) (pre ++ r :: post) =
        (parseUsizeOr0 sa, parseUsizeOr0 sb)) := by
  refine ⟨rfl, fun hall => ?_, fun hpre hr hrev hsucc hsplit => ?_⟩
  · show aheadBehindLoop env b remotes = (0, 0)
    induction remotes with
    | nil => rfl
    | cons rn rest ih =>
        have hhd : env.showBranchOk (rn ++ "/" ++ b) = false :=
          hall rn (List.mem_cons_self rn rest)
        have htl : ∀ x ∈ rest, env.showBranchOk (x ++ "/" ++ b) = false :=
          fun x hx => hall x (List.mem_cons_of_mem rn hx)
        simp only [aheadBehindLoop, hhd]
        exact ih htl
  · show aheadBehindLoop env b (pre ++ r :: post) = _
    induction pre with
    | nil =>
        simp only [List.nil_append, aheadBehindLoop, hr, if_true, hrev, hsucc,
          if_true, hsplit]
    | cons rn rest ih =>
        have hhd : env.showBranchOk (rn ++ "/" ++ b) = false :=
          hpre rn (List.mem_cons_self rn rest)
        have htl : ∀ x ∈ rest, env.showBranchOk (x ++ "/" ++ b) = false :=
          fun x hx => hpre x (List.mem_cons_of_mem rn hx)
        simp only [List.cons_append, aheadBehindLoop, hhd]
        exact ih htl

/-- Concrete subprocess environment for the C7 witness: only `origin/main`
tracks, and `rev-list` reports 3 ahead, 5 behind. -/
def envAheadBehind : AheadBehindEnv where
  showBranchOk := fun s => s == "origin/main"
  revList := fun _ => some ⟨true, "3\t5\n", ""⟩

/-- Witness for C7: the fabricated ahead=3/behind=5 result is reported
exactly, and with no matching remote the report is `(0,0)`. -/
theorem ahead_behind_reporting_witness :
    get_ahead_behind envAheadBehind (some "main") ["origin"] = (3, 5) ∧
      get_ahead_behind envAheadBehind (some "dev") ["origin"] = (0, 0) := by
  constructor
  · have h := (ahead_behind_reporting envAheadBehind ["origin"] "main" [] []
        "origin" ⟨true, "3\t5\n", ""⟩ "3" "5").2.2 (by simp) (by decide) rfl rfl
        (by decide)
    rw [show ((parseUsizeOr0 "3", parseUsizeOr0 "5") : Nat × Nat) = (3, 5) by decide] at h
    exact h
  · exact (ahead_behind_reporting envAheadBehind ["origin"] "dev" [] [] ""
      ⟨true, "", ""⟩ "" "").2.1 (by decide)

/-! ## Branch-listing parse (`get_git_info`, `src/git/logic.rs`)

`get_git_info` runs `git branch -a --sort=-committerdate` and folds over
its lines, accumulating `local_branches` and `remote_branches`: a trimmed
line is skipped when empty; a line starting with `"* "` contributes its
remainder to the local bucket (deduplicated); a line starting with
`"remotes/"` goes to the remote bucket unless it contains `"HEAD"`; any
other line goes to the local bucket (deduplicated).  The final `branches`
list is the local bucket followed by the remote-bucket entries that do not
have a matching local branch (matched by stripping a `remotes/<remote>/`
prefix for each known remote). -/

/-- One iteration of the `for line in output_str.lines()` loop; the
accumulator is the pair `(local_branches, remote_branches)`. -/
def classifyLine (acc : List String × List String) (line : String) :
    List String × List String :=
  let l := strTrim line
  if strIsEmpty l then acc
  else if strStartsWith l "* " then
    let branchName : String := ⟨l.data.drop 2⟩
    if acc.1.contains branchName then acc else (acc.1 ++ [branchName], acc.2)
  else if strStartsWith l "remotes/" then
    if strContains l "HEAD" then acc else (acc.1, acc.2 ++ [l])
  else
    if acc.1.contains l then acc else (acc.1 ++ [l], acc.2)

/-- The whole line loop, starting from two empty buckets. -/
def classifyLines (lines : List String) : List String × List String :=
  lines.foldl classifyLine ([], [])

/-- Rust `str::strip_prefix ( pat)`. -/
def stripLeading (s pat : String) : Option String :=
  if strStartsWith s pat then some ⟨s.data.drop pat.data.length⟩ else none

/-- The `for remote_name in &remotes` search deciding whether a
remote-tracking entry has a matching local branch. -/
def remoteHasLocal (remotes localBranches : List String)
    (remoteBranch : String) : Bool :=
  remotes.any (fun remoteName =>
    match stripLeading remoteBranch ("remotes/" ++ remoteName ++ "/") with
    | some branchName => localBranches.contains branchName
    | none => false)

/-- Assembling `branches`: locals first, then unmatched remote entries. -/
def buildBranches (localBranches remoteBranches remotes : List String) :
    List String :=
  localBranches ++
    remoteBranches.filter (fun rb => ¬ remoteHasLocal remotes localBranches rb)

/-- The branch list `get_git_info` reports, as a function of the raw
`git branch -a` stdout and the known remote names. -/
def parseBranchList (output : String) (remotes : List String) : List String :=
  buildBranches (classifyLines (strSplitChar output '\n')).1
    (classifyLines (strSplitChar output '\n')).2 remotes

theorem classifyLine_snd_mem (acc : List String × List String) (line x : String)
    (hx : x ∈ (classifyLine acc line).2) :
    x ∈ acc.2 ∨ strContains x "HEAD" = false := by
  unfold classifyLine at hx
  by_cases h1 : strIsEmpty (strTrim line) = true
  · simp only [h1, if_true] at hx
    exact Or.inl hx
  · simp only [h1, if_false, Bool.false_eq_true] at hx
    by_cases h2 : strStartsWith (strTrim line) "* " = true
    · simp only [h2, if_true] at hx
      by_cases h3 : acc.1.contains ⟨(strTrim line).data.drop 2⟩ = true
      · simp only [h3, if_true] at hx
        exact Or.inl hx
      · simp only [h3, if_false, Bool.false_eq_true] at hx
        exact Or.inl hx
    · simp only [h2, if_false, Bool.false_eq_true] at hx
      by_cases h4 : strStartsWith (strTrim line) "remotes/" = true
      · simp only [h4, if_true] at hx
        by_cases h5 : strContains (strTrim line) "HEAD" = true
        · simp only [h5, if_true] at hx
          exact Or.inl hx
        · simp only [h5, if_false, Bool.false_eq_true] at hx
          rcases List.mem_append.mp hx with h | h
          · exact Or.inl h
          · have hxl : x = strTrim line := by simpa using h
            subst hxl
            exact Or.inr (Bool.eq_false_iff.mpr h5)
      · simp only [h4, if_false, Bool.false_eq_true] at hx
        by_cases h6 : acc.1.contains (strTrim line) = true
        · simp only [h6, if_true] at hx
          exact Or.inl hx
        · simp only [h6, if_false, Bool.false_eq_true] at hx
          exact Or.inl hx

theorem classifyLines_snd_mem (lines : List String)
    (acc : List String × List String) (x : String)
    (hx : x ∈ (lines.foldl classifyLine acc).2) :
    x ∈ acc.2 ∨ strContains x "HEAD" = false := by
  induction lines generalizing acc with
  | nil => exact Or.inl hx
  | cons l ls ih =>
      simp only [List.foldl_cons] at hx
      rcases ih (classifyLine acc l) hx with h | h
      · exact classifyLine_snd_mem acc l x h
      · exact Or.inr h

/-- C10: a line of the branch listing that is a remote-tracking entry
(trims to something starting with `"remotes/"`) and whose text contains
`"HEAD"` is never included in the reported branches list — the symbolic
remote HEAD pointer is silently dropped.  (The trimmed text is additionally
assumed not to coincide with an entry of the local bucket, since an
identically named local branch would enter the list on its own account, not
as a remote-tracking entry.) -/
theorem remote_head_line_filtered (output : String) (remotes : List String)
    (line : String)
    (hmem : line ∈ strSplitChar output '\n')
    (hrem : strStartsWith (strTrim line) "remotes/" = true)
    (hhead : strContains (strTrim line) "HEAD" = true)
    (hnotlocal : strTrim line ∉ (classifyLines (strSplitChar output '\n')).1) :
    strTrim line ∉ parseBranchList output remotes := by
  intro hin
  unfold parseBranchList buildBranches at hin
  rcases List.mem_append.mp hin with h | h
  · exact hnotlocal h
  · have h2 := (List.mem_filter.mp h).1
    rcases classifyLines_snd_mem (strSplitChar output '\n') ([], []) (strTrim line) h2 with h3 | h3
    · simp at h3
    · rw [hhead] at h3
      cases h3

/-- Witness for C10: in a listing with a current branch, the
`remotes/origin/HEAD` pointer line and one real remote branch, the pointer
line is absent from the reported list. -/
theorem remote_head_line_filtered_witness :
    strTrim "  remotes/origin/HEAD -> origin/main" ∉
      parseBranchList "* main\n  remotes/origin/HEAD -> origin/main\n  remotes/origin/dev"
        ["origin"] :=
  remote_head_line_filtered
    "* main\n  remotes/origin/HEAD -> origin/main\n  remotes/origin/dev"
    ["origin"] "  remotes/origin/HEAD -> origin/main"
    (by decide) (by decide) (by decide) (by decide)

/-! ## Repository discovery (`RepositorySearcher`, `src/app/search.rs`)

The filesystem is modelled as a tree of named entries; a path is the list
of directory names from the scanned root.  `is_git_repository(path)` is
`path.join(".git").exists()`: the directory has a child named `.git`.
`scan_for_repositories` iterates a directory's entries in order; files are
ignored; a subdirectory that is itself a repository is pushed (and not
descended into); otherwise it is descended into unless its name starts
with `.` or case-insensitively equals `node_modules`, `target` or
`build`. -/

/-- A filesystem entry. -/
inductive FsEntry where
  | dir (name : String) (children : List FsEntry)
  | file (name : String)

/-- The entry's own name. -/
def entryName : FsEntry → String
  | FsEntry.dir n _ => n
  | FsEntry.file n => n

/-- Model of `Self::is_git_repository(path)`: `path.join(".git").exists()`. -/
def isGitRepositoryEntry : FsEntry → Bool
  | FsEntry.dir _ cs => cs.any (fun c => entryName c == ".git")
  | FsEntry.file _ => false

/-- The name-based skip condition guarding recursion. -/
def excludedDirName (n : String) : Bool :=
  strStartsWith n "." || eqIgnoreAsciiCase n "node_modules" ||
    eqIgnoreAsciiCase n "target" || eqIgnoreAsciiCase n "build"

mutual

/-- The body of `scan_for_repositories`' entry loop for one entry, at path
`pfxPath ++ [name]`. -/
def scanEntry (pfxPath : List String) : FsEntry → List (List String)
  | FsEntry.file _ => []
  | FsEntry.dir n cs =>
      if isGitRepositoryEntry (FsEntry.dir n cs) then [pfxPath ++ [n]]
      else if excludedDirName n then []
      else scanChildren (pfxPath ++ [n]) cs

/-- Model of `scan_for_repositories` over a directory's entry list (appending to the
result vector becomes list concatenation). -/
def scanChildren (pfxPath : List String) : List FsEntry → List (List String)
  | [] => []
  | c :: rest => scanEntry pfxPath c ++ scanChildren pfxPath rest

end

/-- Model of `RepositorySearcher::find_git_repositories`; the scanned root's own
path is `[]`. -/
def find_git_repositories (root : FsEntry) : List (List String) :=
  if isGitRepositoryEntry root then [[]]
  else
    match root with
    | FsEntry.dir _ cs => scanChildren [] cs
    | FsEntry.file _ => []

/-- A bare `.git` marker directory. -/
def gitMarker : FsEntry := FsEntry.dir ".git" []

/-- The tree of the claim: the only repositories are `node_modules`,
`.hidden` and `build`, and the root itself is not one. -/
def exampleExclusionTree : FsEntry :=
  FsEntry.dir "root"
    [FsEntry.dir "node_modules" [gitMarker],
      FsEntry.dir ".hidden" [gitMarker],
      FsEntry.dir "build" [gitMarker]]

/-- Evaluating the scan on the example tree: all three repositories are
found, because `scan_for_repositories` tests `is_git_repository` before
the name-based exclusion — an excluded name only suppresses recursion, not
the repository check. -/
theorem exampleExclusionTree_eval :
    find_git_repositories exampleExclusionTree =
      [["node_modules"], [".hidden"], ["build"]] := by
  simp [find_git_repositories, exampleExclusionTree, gitMarker, scanChildren,
    scanEntry, isGitRepositoryEntry, entryName]

/-- C3 counterexample: the claimed-empty scan in fact returns all three
directories. -/
theorem discovery_exclusions_counterexample :
    find_git_repositories exampleExclusionTree =
      [["node_modules"], [".hidden"], ["build"]] ∧
      find_git_repositories exampleExclusionTree ≠ [] := by
  refine ⟨exampleExclusionTree_eval, ?_⟩
  rw [exampleExclusionTree_eval]
  simp

/-- C3 amended: the exclusion applies only to directories that are not
themselves repositories — a non-repository directory whose name starts with
`.` or case-insensitively matches `node_modules`, `target` or `build` is
skipped entirely (never recursed into, contributes nothing to the scan),
while a directory that is a repository is returned regardless of its name;
consequently the example tree yields exactly its three repositories rather
than an empty result. -/
theorem discovery_exclusions (pfx : List String) (n : String)
    (cs : List FsEntry) (before later : List FsEntry)
    (hrepo : isGitRepositoryEntry (FsEntry.dir n cs) = false)
    (hname : excludedDirName n = true) :
    scanEntry pfx (FsEntry.dir n cs) = [] ∧
    scanChildren pfx (before ++ FsEntry.dir n cs :: later) =
      scanChildren pfx (before ++ later) ∧
    find_git_repositories exampleExclusionTree =
      [["node_modules"], [".hidden"], ["build"]] := by
  have hskip : scanEntry pfx (FsEntry.dir n cs) = [] := by
    simp [scanEntry, hrepo, hname]
  refine ⟨hskip, ?_, exampleExclusionTree_eval⟩
  induction before with
  | nil => simp [scanChildren, hskip]
  | cons b bs ih => simp [scanChildren, ih]

/-- Witness for C3's amended claim: a non-repository `target` directory
containing an ordinary project is skipped, while the example tree still
yields its three oddly named repositories. -/
theorem discovery_exclusions_witness :
    scanEntry [] (FsEntry.dir "target" [FsEntry.file "out.bin"]) = [] ∧
      scanChildren [] [FsEntry.dir "target" [FsEntry.file "out.bin"]] =
        scanChildren [] [] ∧
      find_git_repositories exampleExclusionTree =
        [["node_modules"], [".hidden"], ["build"]] := by
  have h := discovery_exclusions [] "target" [FsEntry.file "out.bin"] [] []
    (by simp [isGitRepositoryEntry, entryName]) (by decide)
  exact ⟨h.1, h.2.1, h.2.2⟩

/-! ## Workspace model (`src/workspace/mod.rs`)

Paths are modelled as slash-separated strings; identity is by equality,
matching `r.path == repo_path` in the source. -/

/-- Structure `GitInfo` from `src/git/logic.rs`. -/
structure GitInfo where
  current_branch : Option String
  branches : List String
  ahead : Nat
  behind : Nat
  has_changes : Bool
deriving DecidableEq, Repr

/-- From `impl Default for GitInfo`. -/
def gitInfoDefault : GitInfo :=
  { current_branch := none, branches := [], ahead := 0, behind := 0,
    has_changes := false }

/-- Structure `RepositoryState` (the spec's `RepositoryRecord`). -/
structure RepositoryState where
  path : String
  name : String
  git_info : GitInfo
deriving DecidableEq, Repr

/-- Model of `path.file_name()` for the slash-separated paths used here: the last
non-empty component (empty when there is none). -/
def pathFileName (p : String) : String :=
  ((strSplitChar p '/').filter (fun c => ¬ strIsEmpty c)).getLastD ""

/-- Model of `RepositoryState::new`. -/
def RepositoryState.new (p : String) : RepositoryState :=
  { path := p, name := pathFileName p, git_info := gitInfoDefault }

/-- Structure `Workspace`. -/
structure Workspace where
  name : String
  repositories : List RepositoryState
  is_loaded : Bool
deriving DecidableEq, Repr

/-- Model of `Workspace::add_repository`: mutation modelled by returning the updated
workspace along with the source's `bool`. -/
def Workspace.add_repository (ws : Workspace) (repo_path : String) :
    Bool × Workspace :=
  if ws.repositories.any (fun r => r.path == repo_path) then (false, ws)
  else
    (true, { ws with
      repositories := ws.repositories ++ [RepositoryState.new repo_path] })

/-- Model of `Workspace::remove_repository`: `Vec::remove(index)` shifts the
remainder left, i.e. `List.eraseIdx`. -/
def Workspace.remove_repository (ws : Workspace) (index : Nat) :
    Option (RepositoryState × Workspace) :=
  if h : index < ws.repositories.length then
    some (ws.repositories.get ⟨index, h⟩,
      { ws with repositories := ws.repositories.eraseIdx index })
  else none

theorem nodup_map_get_not_mem_eraseIdx {α β : Type} (f : α → β) (l : List α)
    (i : Nat) (h : i < l.length) (hnd : (l.map f).Nodup) :
    f (l.get ⟨i, h⟩) ∉ (l.eraseIdx i).map f := by
  induction l generalizing i with
  | nil => simp at h
  | cons a t ih =>
      simp only [List.map_cons, List.nodup_cons] at hnd
      cases i with
      | zero =>
          show f ((a :: t).get ⟨0, h⟩) ∉ (t.map f)
          exact hnd.1
      | succ j =>
          have hj : j < t.length := by simpa using h
          show f (t.get ⟨j, hj⟩) ∉ (a :: t.eraseIdx j).map f
          simp only [List.map_cons, List.mem_cons]
          push_neg
          constructor
          · intro heq
            exact hnd.1 (heq ▸ List.mem_map_of_mem f (t.get_mem j hj))
          · exact ih j hj hnd.2

/-- The `any` probe of `add_repository` agrees with path membership. -/
theorem add_probe_eq_mem (l : List RepositoryState) (p : String) :
    l.any (fun r => r.path == p) = true ↔ p ∈ l.map RepositoryState.path := by
  rw [List.any_eq_true]
  constructor
  · rintro ⟨r, hr, hp⟩
    exact List.mem_map.mpr ⟨r, hr, by simpa using hp⟩
  · intro hmem
    rcases List.mem_map.mp hmem with ⟨r, hr, hp⟩
    exact ⟨r, hr, by simpa using hp⟩

/-- Evaluating `add_repository` on two explicit outcomes of the probe. -/
theorem add_repository_present (ws : Workspace) (p : String)
    (hp : ws.repositories.any (fun r => r.path == p) = true) :
    ws.add_repository p = (false, ws) := by
  unfold Workspace.add_repository
  rw [if_pos hp]

theorem add_repository_absent (ws : Workspace) (p : String)
    (hp : ¬ ws.repositories.any (fun r => r.path == p) = true) :
    ws.add_repository p =
      (true, { ws with
        repositories := ws.repositories ++ [RepositoryState.new p] }) := by
  unfold Workspace.add_repository
  rw [if_neg hp]

/-- C8: no two records of a workspace share a path — `add_repository`
returns `false` and leaves the workspace unchanged when the path is already
present; it preserves path-distinctness; and after `remove_repository`
removes a record by a valid index, re-adding the removed record's path
returns `true`. -/
theorem workspace_path_uniqueness (ws : Workspace) (p : String) (i : Nat)
    (r : RepositoryState) (ws' : Workspace) :
    (p ∈ ws.repositories.map RepositoryState.path →
      ws.add_repository p = (false, ws)) ∧
    ((ws.repositories.map RepositoryState.path).Nodup →
      ((ws.add_repository p).2.repositories.map RepositoryState.path).Nodup) ∧
    ((ws.repositories.map RepositoryState.path).Nodup →
      ws.remove_repository i = some (r, ws') →
      (ws'.add_repository r.path).1 = true) := by
  refine ⟨fun hmem => ?_, fun hnd => ?_, fun hnd hrem => ?_⟩
  · exact add_repository_present ws p ((add_probe_eq_mem ws.repositories p).mpr hmem)
  · by_cases hp : ws.repositories.any (fun r => r.path == p) = true
    · rw [add_repository_present ws p hp]
      exact hnd
    · have hmem : p ∉ ws.repositories.map RepositoryState.path := by
        intro hmem
        exact hp ((add_probe_eq_mem ws.repositories p).mpr hmem)
      rw [add_repository_absent ws p hp]
      show ((ws.repositories ++ [RepositoryState.new p]).map RepositoryState.path).Nodup
      rw [List.map_append, List.nodup_append]
      refine ⟨hnd, by simp, ?_⟩
      intro x hx hx1
      have hxp : x = p := by
        simpa [RepositoryState.new] using hx1
      exact hmem (hxp ▸ hx)
  · unfold Workspace.remove_repository at hrem
    by_cases h : i < ws.repositories.length
    · rw [dif_pos h] at hrem
      injection hrem with hrem
      injection hrem with hr hws
      subst hr
      subst hws
      have hout := nodup_map_get_not_mem_eraseIdx RepositoryState.path
        ws.repositories i h hnd
      have hprobe :
          ¬ (ws.repositories.eraseIdx i).any
            (fun x => x.path == (ws.repositories.get ⟨i, h⟩).path) = true := by
        intro hc
        exact hout ((add_probe_eq_mem _ _).mp hc)
      rw [add_repository_absent _ _ hprobe]
    · rw [dif_neg h] at hrem
      cases hrem

/-- A concrete two-repository workspace for the C8 witness. -/
def exampleWorkspace : Workspace :=
  { name := "w",
    repositories := [RepositoryState.new "/a/x", RepositoryState.new "/a/y"],
    is_loaded := false }

/-- Witness for C8 on `exampleWorkspace`: re-adding a present path is
refused and leaves the workspace unchanged; removing index 0 and re-adding
its path succeeds. -/
theorem workspace_path_uniqueness_witness :
    exampleWorkspace.add_repository "/a/x" = (false, exampleWorkspace) ∧
      ((({ name := "w", repositories := [RepositoryState.new "/a/y"],
            is_loaded := false } : Workspace).add_repository
          (RepositoryState.new "/a/x").path).1 = true) := by
  constructor
  · exact (workspace_path_uniqueness exampleWorkspace "/a/x" 0
      (RepositoryState.new "/a/x") exampleWorkspace).1 (by decide)
  · exact (workspace_path_uniqueness exampleWorkspace "/a/x" 0
      (RepositoryState.new "/a/x")
      { name := "w", repositories := [RepositoryState.new "/a/y"],
        is_loaded := false }).2.2 (by decide) (by decide)

/-! ## Branch switching (`switch_branch`, `src/git/operations.rs`)

`switch_branch` first opens the repository (`gix::open`, propagating
failure).  A name starting with `"remotes/"` is split at `/`; with fewer
than 3 segments it fails with "Invalid remote branch name format" before
any subprocess runs; otherwise the local name is the remaining segments
re-joined, probed with `git show-ref`, and checked out directly or created
as a tracking branch.  A plain name is checked out directly.  The embedding
returns the source's `Result` together with the list of git processes
spawned, in order. -/

/-- The git subprocesses `switch_branch` can spawn. -/
inductive GitCmd where
  /-- Process `git show-ref --verify --quiet refs/heads/<name>`. -/
  | showRef (ref : String)
  /-- Process `git checkout <branch>`. -/
  | checkout (branch : String)
  /-- Process `git checkout -b <local> <remote-ref>`. -/
  | checkoutTrack (localBranch : String) (remoteRef : String)
deriving DecidableEq, Repr

/-- Environment of `switch_branch`: the `gix::open` outcome and each
subprocess invocation's outcome (`Except.error` = could not spawn, the
`?` path). -/
structure SwitchEnv where
  gixOpenOk : Bool
  run : GitCmd → Except String CmdOut

/-- Rust `parts[2..].join("/")`. -/
def joinSlash : List String → String
  | [] => ""
  | [s] => s
  | s :: rest => s ++ "/" ++ joinSlash rest

/-- Model of `switch_branch`, returning its `Result` and the spawned process
trace. -/
def switch_branch (env : SwitchEnv) (branch_name : String) :
    Except String Unit × List GitCmd :=
  if env.gixOpenOk = false then (Except.error "gix open failed", [])
  else if strStartsWith branch_name "remotes/" then
    let parts := strSplitChar branch_name '/'
    if parts.length ≥ 3 then
      let localName := joinSlash (parts.drop 2)
      let c1 := GitCmd.showRef ("refs/heads/" ++ localName)
      match env.run c1 with
      | Except.error e => (Except.error e, [c1])
      | Except.ok r1 =>
          if r1.success then
            let c2 := GitCmd.checkout localName
            match env.run c2 with
            | Except.error e => (Except.error e, [c1, c2])
            | Except.ok r2 =>
                (if r2.success then Except.ok ()
                  else Except.error ("Git checkout failed: " ++ r2.stderr),
                  [c1, c2])
          else
            let c2 := GitCmd.checkoutTrack localName branch_name
            match env.run c2 with
            | Except.error e => (Except.error e, [c1, c2])
            | Except.ok r2 =>
                (if r2.success then Except.ok ()
                  else Except.error ("Git checkout failed: " ++ r2.stderr),
                  [c1, c2])
    else (Except.error "Invalid remote branch name format", [])
  else
    let c := GitCmd.checkout branch_name
    match env.run c with
    | Except.error e => (Except.error e, [c])
    | Except.ok r =>
        (if r.success then Except.ok ()
          else Except.error ("Git checkout failed: " ++ r.stderr), [c])

/-- C9: when the repository opens and the branch name starts with
`"remotes/"` but splits into fewer than 3 `/`-separated segments,
`switch_branch` fails with the invalid-branch-format error and spawns no
git process. -/
theorem switch_branch_invalid_format (env : SwitchEnv) (branch_name : String)
    (hopen : env.gixOpenOk = true)
    (hpre : strStartsWith branch_name "remotes/" = true)
    (hlen : (strSplitChar branch_name '/').length < 3) :
    switch_branch env branch_name =
      (Except.error "Invalid remote branch name format", []) := by
  have hlen' : ¬ (strSplitChar branch_name '/').length ≥ 3 := by omega
  simp [switch_branch, hopen, hpre, hlen']

/-- A benign environment for the C9 witness: everything spawns and
succeeds. -/
def allOkSwitchEnv : SwitchEnv :=
  { gixOpenOk := true, run := fun _ => Except.ok ⟨true, "", ""⟩ }

/-- Witness for C9 at the malformed ref `"remotes/origin"` (2 segments). -/
theorem switch_branch_invalid_format_witness :
    switch_branch allOkSwitchEnv "remotes/origin" =
      (Except.error "Invalid remote branch name format", []) :=
  switch_branch_invalid_format allOkSwitchEnv "remotes/origin"
    rfl (by decide) (by decide)

end RepoManager
